import Mathlib

/-!
A shallow embedding of the Subject-Verb-Agreement (SVA) analysis engine
(`grammar_engine/csg_engine.py` together with the lexicon tables of
`grammar_engine/extended_features.py`).

Words and tagged parse strings are modelled as `List Char` (`Str`), so that
Python's character-index slicing maps to `List.take`/`List.drop` directly.
Python dictionaries become association lists searched with `lookup`; Python
sets become list membership.  All functions are total and executable; the
few Python list accesses that are guarded by earlier checks are rendered
with `Option`-returning accessors whose `none` case coincides with the
guarded behaviour.  Token offsets, parse trees and problem spans are not
modelled: no verified property inspects them.
-/

namespace SVA

/-- Strings are modelled as lists of characters. -/
abbrev Str := List Char

/-- A token is its surface text (offsets are unused by the verified properties). -/
abbrev Token := Str

/-- The grammatical number feature: `'singular' | 'plural'`. -/
inductive Number where
  | singular
  | plural
deriving DecidableEq, Repr

/-- Render a number the way Python interpolates it into f-strings. -/
def Number.toStr : Number → Str
  | .singular => "singular".data
  | .plural => "plural".data

/-- Result status of an analysis: `'ok' | 'error'`. -/
inductive Status where
  | ok
  | error
deriving DecidableEq, Repr

/-- The apostrophe character (written via its code point). -/
def apos : Char := Char.ofNat 39

/-- Lowercase a word character-wise (Python `str.lower` on ASCII input). -/
def lowerS (w : Str) : Str := w.map Char.toLower

/-- Association-list lookup with decidable key equality (Python dict access). -/
def lookup {β : Type} (w : Str) : List (Str × β) → Option β
  | [] => none
  | (k, v) :: rest => if w = k then some v else lookup w rest

/-- The last `n` characters of `l`, reversed (a helper for suffix tests). -/
def revTake (n : Nat) (l : Str) : Str := l.reverse.take n

/-- Python `str.endswith`: `sfx` is a suffix of `w`. -/
def endsWith (w sfx : Str) : Bool := decide (revTake sfx.length w = sfx.reverse)

/-- Python `str.endswith` with a tuple argument: any of the suffixes matches. -/
def endsWithAny (w : Str) (sfxs : List Str) : Bool := sfxs.any (fun sfx => endsWith w sfx)

/-- Whether `pre` is a prefix of the second argument (character-wise). -/
def isPrefixL : Str → Str → Bool
  | [], _ => true
  | _ :: _, [] => false
  | a :: as, b :: bs => decide (a = b) && isPrefixL as bs

/-- Python substring containment `needle in hay`. -/
def containsSub (needle : Str) : Str → Bool
  | [] => decide (needle = [])
  | c :: rest => isPrefixL needle (c :: rest) || containsSub needle rest

/-! ### Lexicons (`extended_features.py`), immutable configuration data. -/

/-- `PRONOUNS` (the `person` field is never read by the engine and is omitted). -/
def PRONOUNS : List (Str × Number) :=
  [("i".data, .plural), ("you".data, .plural), ("he".data, .singular),
   ("she".data, .singular), ("it".data, .singular), ("we".data, .plural),
   ("they".data, .plural)]

/-- `IRREGULAR_VERBS`: verb ↦ (its number, the opposite-number form). -/
def IRREGULAR_VERBS : List (Str × (Number × Str)) :=
  [("is".data, (.singular, "are".data)), ("are".data, (.plural, "is".data)),
   ("was".data, (.singular, "were".data)), ("were".data, (.plural, "was".data)),
   ("has".data, (.singular, "have".data)), ("have".data, (.plural, "has".data)),
   ("does".data, (.singular, "do".data)), ("do".data, (.plural, "does".data))]

/-- `CONTRACTIONS`: contraction ↦ number (apostrophes written as `\x27`). -/
def CONTRACTIONS : List (Str × Number) :=
  [("don\x27t".data, .plural), ("dont".data, .plural),
   ("doesn\x27t".data, .singular), ("doesnt".data, .singular),
   ("isn\x27t".data, .singular), ("isnt".data, .singular),
   ("aren\x27t".data, .plural), ("arent".data, .plural),
   ("wasn\x27t".data, .singular), ("wasnt".data, .singular),
   ("weren\x27t".data, .plural), ("werent".data, .plural),
   ("haven\x27t".data, .plural), ("havent".data, .plural),
   ("hasn\x27t".data, .singular), ("hasnt".data, .singular),
   ("won\x27t".data, .singular), ("wont".data, .singular),
   ("can\x27t".data, .plural), ("cant".data, .plural)]

/-- `AUXILIARIES`. -/
def AUXILIARIES : List Str :=
  ["is".data, "are".data, "was".data, "were".data, "has".data, "have".data,
   "do".data, "does".data, "will".data, "can".data, "should".data,
   "would".data, "could".data]

/-- `INDEFINITE_PRONOUNS` (Rule 5). -/
def INDEFINITE_PRONOUNS : List Str :=
  ["everyone".data, "everybody".data, "everything".data,
   "someone".data, "somebody".data, "something".data,
   "anyone".data, "anybody".data, "anything".data,
   "no one".data, "nobody".data, "nothing".data,
   "each".data, "either".data, "neither".data,
   "one".data, "another".data, "other".data]

/-- `COLLECTIVE_NOUNS` (Rule 6). -/
def COLLECTIVE_NOUNS : List Str :=
  ["team".data, "group".data, "class".data, "family".data, "committee".data,
   "staff".data, "crew".data, "audience".data, "band".data, "jury".data,
   "council".data, "crowd".data, "company".data, "government".data,
   "organization".data, "department".data, "army".data, "navy".data,
   "police".data, "public".data]

/-- `UNIT_WORDS` (Rule 8; `'pounds'` is listed twice in the source set literal). -/
def UNIT_WORDS : List Str :=
  ["dollars".data, "pesos".data, "pounds".data, "euros".data, "cents".data,
   "hours".data, "minutes".data, "seconds".data, "days".data, "weeks".data,
   "months".data, "years".data, "miles".data, "kilometers".data, "meters".data,
   "feet".data, "kilograms".data, "pounds".data, "ounces".data]

/-- `SINGULAR_PLURALS` (Rule 9). -/
def SINGULAR_PLURALS : List Str :=
  ["philippines".data, "united states".data, "netherlands".data,
   "mathematics".data, "physics".data, "economics".data, "politics".data,
   "news".data, "measles".data, "mumps".data, "diabetes".data,
   "athletics".data, "gymnastics".data, "statistics".data]

/-- The irregular-plural word list local to `classify_noun`. -/
def irregularPlurals : List Str :=
  ["children".data, "people".data, "men".data, "women".data, "feet".data,
   "teeth".data, "mice".data]

/-! ### Tokenizer (`tokenize`, regex `\w+(?:'\w+)?|[^\s\w]`) -/

/-- A word character of the tokenizing regex (`\w` on ASCII input). -/
def isWordChar (c : Char) : Bool := c.isAlphanum || c = '_'

/-- Whitespace as skipped by the tokenizing regex (`\s` on ASCII input). -/
def isSpaceChar (c : Char) : Bool := c.isWhitespace

/-- One left-to-right scan of the tokenizing regex: a maximal word-character
run optionally extended by a single `'`+word-run, else one non-space
non-word character; whitespace is skipped.  The fuel argument (one unit per
consumed character) makes the recursion structural. -/
def tokenizeGo : Nat → Str → List Token
  | 0, _ => []
  | _, [] => []
  | fuel + 1, c :: cs =>
    if isWordChar c then
      let run := (c :: cs).takeWhile isWordChar
      let rest := (c :: cs).dropWhile isWordChar
      match rest with
      | a :: r2 =>
        if decide (a = apos) && (match r2 with | d :: _ => isWordChar d | [] => false) then
          let run2 := r2.takeWhile isWordChar
          let rest2 := r2.dropWhile isWordChar
          (run ++ a :: run2) :: tokenizeGo fuel rest2
        else
          run :: tokenizeGo fuel rest
      | [] => [run]
    else if isSpaceChar c then tokenizeGo fuel cs
    else [c] :: tokenizeGo fuel cs

/-- `tokenize`: split a sentence into word/punctuation tokens. -/
def tokenize (sentence : Str) : List Token := tokenizeGo sentence.length sentence

/-- Whether `re.match(r"\w+(?:'\w+)?", text)` succeeds: the text starts with
a word character. -/
def isWordToken (t : Token) : Bool :=
  match t with
  | c :: _ => isWordChar c
  | [] => false

/-- The word list `[t['text'] for t in tokens if re.match(..., t['text'])]`. -/
def wordTokens (tokens : List Token) : List Str := tokens.filter isWordToken

/-! ### Lexical classifiers (`classify_noun`, `classify_verb`) -/

/-- Category tag strings used by `classify_noun`. -/
def indefiniteW : Str := "indefinite".data

def pronounW : Str := "pronoun".data

def singularPluralW : Str := "singular_plural".data

def collectiveW : Str := "collective".data

def unitW : Str := "unit".data

def regularW : Str := "regular".data

def compoundW : Str := "compound".data

/-- The possessive suffix `'s`. -/
def apostS : Str := [apos, 's']

/-- `classify_noun(noun) -> (category, number)`. -/
def classify_noun (noun : Str) : Str × Number :=
  let nl := lowerS noun
  if nl ∈ INDEFINITE_PRONOUNS then (indefiniteW, .singular)
  else
    match lookup nl PRONOUNS with
    | some num => (pronounW, num)
    | none =>
      if nl ∈ SINGULAR_PLURALS then (singularPluralW, .singular)
      else if nl ∈ COLLECTIVE_NOUNS then (collectiveW, .singular)
      else if nl ∈ UNIT_WORDS then (unitW, .singular)
      else if nl ∈ irregularPlurals then (regularW, .plural)
      else if endsWith nl "s".data ∧ ¬ endsWith nl apostS = true then (regularW, .plural)
      else (regularW, .singular)

/-- The exception set `{'was', 'is', 'has', 'does'}` of `classify_verb`. -/
def verbSExceptions : List Str := ["was".data, "is".data, "has".data, "does".data]

/-- `classify_verb(verb) -> number`. -/
def classify_verb (verb : Str) : Number :=
  let v := lowerS verb
  match lookup v CONTRACTIONS with
  | some n => n
  | none =>
    match lookup v IRREGULAR_VERBS with
    | some p => p.1
    | none =>
      if endsWith v "s".data = true ∧ v ∉ verbSExceptions then .singular
      else .plural

/-! ### Compound-subject detection (`detect_compound_subject`) -/

/-- `CompoundInfo`: the dictionary returned by `detect_compound_subject`. -/
structure CompoundInfo where
  coordinator : Str
  subjects : Str × Str
  compound_number : Number
deriving DecidableEq, Repr

/-- The subject coordinators `{'and', 'or', 'nor'}`. -/
def subjectCoordinators : List Str := ["and".data, "or".data, "nor".data]

/-- The determiners `{'the', 'a', 'an'}`. -/
def determiners : List Str := ["the".data, "a".data, "an".data]

/-- The verb-before-coordinator test of `detect_compound_subject`. -/
def isVerbBefore (beforeLower : Str) : Bool :=
  decide (beforeLower ∈ AUXILIARIES) ||
  (lookup beforeLower IRREGULAR_VERBS).isSome ||
  (lookup beforeLower CONTRACTIONS).isSome ||
  (endsWithAny beforeLower ["s".data, "ed".data, "ing".data] &&
   (lookup beforeLower PRONOUNS).isNone &&
   decide (beforeLower.length > 3))

/-- The verb-after-pronoun test of `detect_compound_subject`. -/
def isVerbAfter (nextLower : Str) : Bool :=
  decide (nextLower ∈ AUXILIARIES) ||
  (lookup nextLower IRREGULAR_VERBS).isSome ||
  endsWithAny nextLower ["s".data, "ed".data, "ing".data]

/-- The Rule 3 / Rule 4 returns of `detect_compound_subject` once a
coordinator with acceptable neighbours is reached (`wl` is the lowercased
coordinator word; `recurse` is the continuation of the scan, taken when
`wl` is neither `and` nor `or`/`nor`, which cannot happen for words drawn
from `subjectCoordinators`). -/
def detectAccept (wl beforeWord afterWord : Str) (recurse : Option CompoundInfo) :
    Option CompoundInfo :=
  if wl = "and".data then
    some ⟨"and".data, (beforeWord, afterWord), .plural⟩
  else if wl = "or".data ∨ wl = "nor".data then
    some ⟨wl, (beforeWord, afterWord), (classify_noun afterWord).2⟩
  else recurse

/-- The scanning loop of `detect_compound_subject`: `prev` is `words[i-1]`
(absent at the first position), the list argument is `words[i:]`. -/
def detectFrom : Option Str → List Str → Option CompoundInfo
  | _, [] => none
  | prev, w :: rest =>
    let wl := lowerS w
    if wl ∈ subjectCoordinators then
      match prev with
      | some beforeWord =>
        if rest ≠ [] then
          if isVerbBefore (lowerS beforeWord) then detectFrom (some w) rest
          else
            match rest.dropWhile (fun x => decide (lowerS x ∈ determiners)) with
            | [] => detectFrom (some w) rest
            | afterWord :: rest2 =>
              if (lookup (lowerS afterWord) PRONOUNS).isSome then
                match rest2 with
                | nextWord :: _ =>
                  if isVerbAfter (lowerS nextWord) then detectFrom (some w) rest
                  else detectAccept wl beforeWord afterWord (detectFrom (some w) rest)
                | [] => detectAccept wl beforeWord afterWord (detectFrom (some w) rest)
              else detectAccept wl beforeWord afterWord (detectFrom (some w) rest)
        else detectFrom (some w) rest
      | none => detectFrom (some w) rest
    else detectFrom (some w) rest

/-- `detect_compound_subject(words)`. -/
def detect_compound_subject (words : List Str) : Option CompoundInfo :=
  detectFrom none words

/-! ### Subject/verb locator (`find_subject_and_verb`) -/

/-- The possessives `{'my', 'your', 'his', 'her', 'its', 'our', 'their'}`. -/
def possessives : List Str :=
  ["my".data, "your".data, "his".data, "her".data, "its".data, "our".data,
   "their".data]

/-- State of the subject-finding loop: the subject with its index once found,
the index of the last noun seen (`-1` rendered as `none`), and the
found-a-coordinator flag. -/
structure SubjScan where
  subject : Option (Str × Nat)
  lastNoun : Option Nat
  foundCoord : Bool

/-- The subject-finding loop of `find_subject_and_verb` over the enumerated
word list.  The loop breaks at the first noun found after a coordinator
(the counter `nouns_after_coordinator` is incremented exactly once before
the `== 1` test, so it is modelled by the break itself). -/
def subjLoop : List (Nat × Str) → SubjScan → SubjScan
  | [], st => st
  | (i, w) :: rest, st =>
    let wl := lowerS w
    if wl ∈ determiners ∨ wl ∈ possessives then subjLoop rest st
    else if wl ∈ subjectCoordinators then
      subjLoop rest { st with foundCoord := true }
    else if wl ∉ AUXILIARIES ∧ lookup wl CONTRACTIONS = none then
      let st1 := if st.subject = none then { st with subject := some (w, i) } else st
      if st1.foundCoord then { st1 with lastNoun := some i }
      else subjLoop rest { st1 with lastNoun := some i }
    else subjLoop rest st

/-- The non-verb suffixes `('ly', 'tion', 'ness', 'ment')`. -/
def nonVerbSuffixes : List Str := ["ly".data, "tion".data, "ness".data, "ment".data]

/-- `find_subject_and_verb(tokens, compound_info)`, returning the subject and
the verb (the two returned indices are never read by the callers and are
omitted).  The `words[-1]` fallback is rendered with `List.getLast?`, which
agrees with Python on the guarded (non-empty) path. -/
def find_subject_and_verb (tokens : List Token) (compound_info : Option CompoundInfo) :
    Option Str × Option Str :=
  let words := wordTokens tokens
  match words with
  | [] => (none, none)
  | w0 :: _ =>
    let st := subjLoop words.enum ⟨none, none, false⟩
    let subject := match st.subject with
      | some (s, _) => s
      | none => w0
    let subjectIdx := match st.subject with
      | some (_, si) => si
      | none => 0
    let lastNounIdx := match st.subject with
      | some _ => st.lastNoun.getD 0
      | none => 0
    let verbSearchStart := if compound_info.isSome then lastNounIdx + 1 else subjectIdx + 1
    let verb1 := words.find? (fun w => (lookup (lowerS w) CONTRACTIONS).isSome)
    let verb2 := match verb1 with
      | some v => some v
      | none => words.find? (fun w => decide (lowerS w ∈ AUXILIARIES))
    let verb3 := match verb2 with
      | some v => some v
      | none =>
        ((words.enum.drop verbSearchStart).find? (fun iw =>
          let wl := lowerS iw.2
          !decide (wl ∈ subjectCoordinators) && !decide (wl ∈ determiners) &&
          !endsWithAny wl nonVerbSuffixes)).map (fun iw => iw.2)
    let verb4 := match verb3 with
      | some v => some v
      | none => if words.length > verbSearchStart then words.getLast? else none
    (some subject, verb4)

/-! ### CSG production rules (`CSGRule`, `CSG_PRODUCTION_RULES`) -/

/-- A context-sensitive production rule `αAβ → αγβ`. -/
structure CSGRule where
  rule_id : Str
  left_context : Str
  symbol : Str
  right_context : Str
  replacement : Str
  sva_rule_number : Nat
deriving DecidableEq, Repr

/-- Python slice `string[a:b]` (for the in-range uses of `CSGRule`). -/
def slice (s : Str) (a b : Nat) : Str := (s.drop a).take (b - a)

/-- `CSGRule.matches(string, position)`. -/
def CSGRule.matches (r : CSGRule) (s : Str) (pos : Nat) : Bool :=
  let symbolEnd := pos + r.symbol.length
  if symbolEnd > s.length then false
  else if slice s pos symbolEnd ≠ r.symbol then false
  else if pos < r.left_context.length then false
  else if r.left_context ≠ [] ∧ slice s (pos - r.left_context.length) pos ≠ r.left_context then
    false
  else if symbolEnd + r.right_context.length > s.length then false
  else if r.right_context ≠ [] ∧
      slice s symbolEnd (symbolEnd + r.right_context.length) ≠ r.right_context then
    false
  else true

/-- `CSGRule.apply(string, position)` (only called at matching positions; the
Python guards `left_start > 0` / `right_end < len` coincide with the
truncating behaviour of `List.take`/`List.drop`). -/
def CSGRule.applyAt (r : CSGRule) (s : Str) (pos : Nat) : Str :=
  let leftStart := pos - r.left_context.length
  let symbolEnd := pos + r.symbol.length
  let rightEnd := symbolEnd + r.right_context.length
  let pre := s.take leftStart
  let suf := s.drop rightEnd
  pre ++ r.left_context ++ r.replacement ++ r.right_context ++ suf

def R1_1 : CSGRule := ⟨"R1.1".data, "NP[singular]".data, " ".data, "VP[".data, "VP[singular]".data, 1⟩

def R1_2 : CSGRule := ⟨"R1.2".data, "NP[plural]".data, " ".data, "VP[".data, "VP[plural]".data, 1⟩

def R2_1 : CSGRule := ⟨"R2.1".data, "NP[I]".data, " ".data, "VP[".data, "VP[plural]".data, 2⟩

def R2_2 : CSGRule := ⟨"R2.2".data, "NP[you]".data, " ".data, "VP[".data, "VP[plural]".data, 2⟩

def R3 : CSGRule := ⟨"R3".data, "NP[".data, "]+[".data, "]NP[".data, "]+NP[plural]".data, 3⟩

def R4_1 : CSGRule := ⟨"R4.1".data, "NP[".data, "]+[or]NP[singular]".data, " VP[".data, "VP[singular]".data, 4⟩

def R4_2 : CSGRule := ⟨"R4.2".data, "NP[".data, "]+[or]NP[plural]".data, " VP[".data, "VP[plural]".data, 4⟩

def R4_3 : CSGRule := ⟨"R4.3".data, "NP[".data, "]+[nor]NP[singular]".data, " VP[".data, "VP[singular]".data, 4⟩

def R4_4 : CSGRule := ⟨"R4.4".data, "NP[".data, "]+[nor]NP[plural]".data, " VP[".data, "VP[plural]".data, 4⟩

def R5 : CSGRule := ⟨"R5".data, "NP[indefinite]".data, " ".data, "VP[".data, "VP[singular]".data, 5⟩

def R6 : CSGRule := ⟨"R6".data, "NP[collective]".data, " ".data, "VP[".data, "VP[singular]".data, 6⟩

def R8 : CSGRule := ⟨"R8".data, "NP[unit]".data, " ".data, "VP[".data, "VP[singular]".data, 8⟩

def R9 : CSGRule := ⟨"R9".data, "NP[singular_plural]".data, " ".data, "VP[".data, "VP[singular]".data, 9⟩

/-- The ordered rule table `CSG_PRODUCTION_RULES`. -/
def CSG_PRODUCTION_RULES : List CSGRule :=
  [R1_1, R1_2, R2_1, R2_2, R3, R4_1, R4_2, R4_3, R4_4, R5, R6, R8, R9]

/-! ### The derivation engine (`apply_csg_derivation`) -/

/-- One derivation step (`step`, `string`, `rule`; the descriptive fields of
the Python dict are not read by any caller and are omitted). -/
structure DerivStep where
  step : Nat
  string : Str
  rule : Option Str
deriving DecidableEq, Repr

/-- The inner loop `for pos in range(len(current_string))` with break: the
least position `≥ pos` (within `fuel` more positions) where `r` matches. -/
def scanPosGo (r : CSGRule) (s : Str) : Nat → Nat → Option Nat
  | _, 0 => none
  | pos, fuel + 1 => if r.matches s pos then some pos else scanPosGo r s (pos + 1) fuel

/-- The first position in `range(len(s))` where `r` matches, if any. -/
def scanPos (r : CSGRule) (s : Str) : Option Nat := scanPosGo r s 0 s.length

/-- The outer loop over the rule table with break: the first rule in table
order that matches anywhere, with its first matching position. -/
def firstMatch : List CSGRule → Str → Option (CSGRule × Nat)
  | [], _ => none
  | r :: rs, s =>
    match scanPos r s with
    | some p => some (r, p)
    | none => firstMatch rs s

/-- `apply_csg_derivation(parse_string, expected_verb_number)`. -/
def apply_csg_derivation (parse_string : Str) (expected_verb_number : Number) :
    List DerivStep × Str × Bool :=
  let step0 : DerivStep := ⟨0, parse_string, none⟩
  let expectedTag := "VP[".data ++ expected_verb_number.toStr ++ "]".data
  match firstMatch CSG_PRODUCTION_RULES parse_string with
  | none => ([step0], parse_string, containsSub expectedTag parse_string)
  | some (r, pos) =>
    let newString := r.applyAt parse_string pos
    ([step0, ⟨1, newString, some r.rule_id⟩], newString, containsSub expectedTag newString)

/-- `len([d for d in derivation_steps if d['rule'] is not None])`. -/
def rulesAppliedCount (steps : List DerivStep) : Nat :=
  (steps.filter (fun d => d.rule.isSome)).length

/-! ### Verb correction (`get_correct_verb_form`) -/

/-- The vowels `'aeiou'`. -/
def vowels : List Char := ['a', 'e', 'i', 'o', 'u']

/-- The regular-verb part of `get_correct_verb_form` (everything after the
contraction and irregular-verb branches; `v` is the lowercased verb). -/
def correctRegular (verb : Str) (target : Number) (v : Str) : Str :=
  if target = .singular then
    if endsWith v "s".data = true then verb
    else
      if endsWithAny v ["s".data, "sh".data, "ch".data, "x".data, "z".data] = true ∨
          (endsWith v "o".data = true ∧
           endsWithAny v ["oo".data, "eo".data, "io".data] = false) then
        verb ++ "es".data
      else if endsWith v "y".data = true ∧ v.length > 1 ∧
          (match v.reverse.get? 1 with | some b => decide (b ∉ vowels) | none => false) = true then
        verb.take (verb.length - 1) ++ "ies".data
      else verb ++ "s".data
  else
    if endsWith v "ies".data = true then verb.take (verb.length - 3) ++ "y".data
    else if endsWith v "es".data = true ∧ v.length > 2 then
      let base := verb.take (verb.length - 2)
      if endsWithAny base ["s".data, "sh".data, "ch".data, "x".data, "z".data, "o".data] = true then
        base
      else verb.take (verb.length - 1)
    else if endsWith v "s".data = true ∧ v ∉ verbSExceptions then
      verb.take (verb.length - 1)
    else verb

/-- The contraction branch of `get_correct_verb_form`: substring-matched
chain selecting the sibling contraction for the target number. -/
def correctContraction (verb : Str) (target : Number) (v : Str) : Str :=
  if target = .singular then
    if containsSub "do".data v then "doesn\x27t".data
    else if containsSub "is".data v || containsSub "are".data v then "isn\x27t".data
    else if containsSub "was".data v || containsSub "were".data v then "wasn\x27t".data
    else if containsSub "has".data v || containsSub "have".data v then "hasn\x27t".data
    else verb
  else
    if containsSub "do".data v then "don\x27t".data
    else if containsSub "is".data v || containsSub "are".data v then "aren\x27t".data
    else if containsSub "was".data v || containsSub "were".data v then "weren\x27t".data
    else if containsSub "has".data v || containsSub "have".data v then "haven\x27t".data
    else verb

/-- `get_correct_verb_form(verb, target_number)`. -/
def get_correct_verb_form (verb : Str) (target : Number) : Str :=
  let v := lowerS verb
  match lookup v CONTRACTIONS with
  | some _ => correctContraction verb target v
  | none =>
    match lookup v IRREGULAR_VERBS with
    | some p => if p.1 ≠ target then p.2 else correctRegular verb target v
    | none => correctRegular verb target v

/-! ### Python `str.replace` (used for the suggested correction) -/

/-- Python `str.replace(old, new)` with non-empty `old`: replace every
non-overlapping occurrence, scanning left to right.  The fuel argument
(one unit per consumed character) makes the recursion structural. -/
def pyReplaceGo (old new : Str) : Nat → Str → Str
  | 0, s => s
  | fuel + 1, s =>
    if isPrefixL old s then new ++ pyReplaceGo old new fuel (s.drop old.length)
    else
      match s with
      | [] => []
      | c :: cs => c :: pyReplaceGo old new fuel cs

/-- Python `s.replace(old, new)` (the empty-`old` case interleaves `new`
between all characters, as Python does). -/
def pyReplace (s old new : Str) : Str :=
  if old = [] then new ++ s.flatMap (fun c => c :: new)
  else pyReplaceGo old new s.length s

/-! ### Clause analysis (`analyze_single_clause`) -/

/-- The `csg_analysis` sub-dictionary of a clause result. -/
structure CsgAnalysis where
  initial_string : Str
  final_string : Str
  expected_string : Option Str
  rules_applied : Nat
deriving DecidableEq, Repr

/-- The result dictionary of `analyze_single_clause` (the parse tree and the
problem spans are not modelled; absent dictionary keys are `none`/`[]`). -/
structure ClauseResult where
  status : Status
  message : Str
  suggested_correction : Option Str := none
  derivation : List DerivStep := []
  csg_analysis : Option CsgAnalysis := none
deriving DecidableEq, Repr

/-- `create_initial_parse_string(...)`. -/
def create_initial_parse_string (subject _verb : Str) (subject_category : Str)
    (subject_number verb_number : Number) (compound_info : Option CompoundInfo) : Str :=
  match compound_info with
  | some ci =>
    "NP[".data ++ subject_category ++ "+".data ++ ci.coordinator ++ "+".data ++
      subject_number.toStr ++ "] VP[".data ++ verb_number.toStr ++ "]".data
  | none =>
    if lowerS subject ∈ ["i".data, "you".data] ∧ subject_category = pronounW then
      "NP[".data ++ lowerS subject ++ "] VP[".data ++ verb_number.toStr ++ "]".data
    else
      "NP[".data ++ (if subject_category ≠ regularW then subject_category
                     else subject_number.toStr) ++
        "] VP[".data ++ verb_number.toStr ++ "]".data

/-- `analyze_single_clause(tokens, clause_text)`. -/
def analyze_single_clause (tokens : List Token) (clause_text : Str) : ClauseResult :=
  let words := wordTokens tokens
  if words = [] then
    { status := .error, message := "Unable to parse clause (too short).".data }
  else
    let compound_info := detect_compound_subject words
    match find_subject_and_verb tokens compound_info with
    | (some subject, some verb) =>
      let subject_category : Str :=
        match compound_info with
        | some _ => compoundW
        | none => (classify_noun subject).1
      let subject_number : Number :=
        match compound_info with
        | some ci => ci.compound_number
        | none => (classify_noun subject).2
      let display_subject : Str :=
        match compound_info with
        | some ci => ci.subjects.1 ++ " ".data ++ ci.coordinator ++ " ".data ++ ci.subjects.2
        | none => subject
      let verb_number := classify_verb verb
      let parse_string :=
        create_initial_parse_string subject verb subject_category subject_number
          verb_number compound_info
      let derivOut := apply_csg_derivation parse_string subject_number
      if subject_number = verb_number then
        { status := .ok,
          message := "Subject-verb agreement is correct. Subject \x27".data ++
            display_subject ++ "\x27 (".data ++ subject_number.toStr ++
            ") agrees with verb \x27".data ++ verb ++ "\x27 (".data ++
            verb_number.toStr ++ ").".data,
          suggested_correction := none,
          derivation := derivOut.1,
          csg_analysis := some ⟨parse_string, derivOut.2.1, none, rulesAppliedCount derivOut.1⟩ }
      else
        let correct_verb := get_correct_verb_form verb subject_number
        let suggested_sentence := pyReplace clause_text verb correct_verb
        { status := .error,
          message := "Subject-verb disagreement: \x27".data ++ display_subject ++
            "\x27 (".data ++ subject_number.toStr ++ ") does not agree with \x27".data ++
            verb ++ "\x27 (".data ++ verb_number.toStr ++ ").".data,
          suggested_correction := some suggested_sentence,
          derivation := derivOut.1,
          csg_analysis := some ⟨parse_string, derivOut.2.1,
            some ("NP[".data ++ subject_number.toStr ++ "] VP[".data ++
              subject_number.toStr ++ "]".data),
            rulesAppliedCount derivOut.1⟩ }
    | _ =>
      { status := .error, message := "Unable to identify subject and verb.".data }

/-! ### Clause splitting (`split_compound_sentence`) -/

/-- The clause coordinators `{'and', 'or', 'but', 'yet', 'so', 'for', 'nor'}`. -/
def clauseCoordinators : List Str :=
  ["and".data, "or".data, "but".data, "yet".data, "so".data, "for".data, "nor".data]

/-- The common base verbs of `split_compound_sentence`. -/
def commonVerbs : List Str :=
  ["be".data, "have".data, "do".data, "say".data, "get".data, "make".data,
   "go".data, "know".data, "take".data, "see".data, "come".data, "think".data,
   "look".data, "want".data, "give".data, "use".data, "find".data, "tell".data,
   "ask".data, "work".data, "seem".data, "feel".data, "try".data, "leave".data,
   "call".data, "run".data, "play".data, "sing".data, "dance".data, "write".data,
   "read".data, "watch".data, "fix".data, "study".data, "love".data, "like".data,
   "need".data, "help".data, "talk".data, "turn".data, "start".data, "show".data,
   "hear".data, "move".data, "live".data, "bring".data, "sit".data, "stand".data,
   "eat".data, "drink".data, "sleep".data, "walk".data, "drive".data,
   "teach".data, "learn".data]

/-- The suffix-stripping chain computing `base_verb`/`second_base` (the final
`ies` branch is unreachable after the `es` branch, as in the source). -/
def stripVerbEnding (wl : Str) : Str :=
  if endsWith wl "ing".data then wl.take (wl.length - 3)
  else if endsWith wl "ed".data then
    if endsWith wl "eed".data then wl.take (wl.length - 1) else wl.take (wl.length - 2)
  else if endsWith wl "es".data then wl.take (wl.length - 2)
  else if endsWith wl "s".data then wl.take (wl.length - 1)
  else if endsWith wl "ies".data then wl.take (wl.length - 3) ++ "y".data
  else wl

/-- The determiner/pronoun-adjacent word set excluded from the verb-suffix
heuristic of `split_compound_sentence`. -/
def splitStopWords : List Str :=
  ["the".data, "a".data, "an".data, "this".data, "that".data, "these".data,
   "those".data, "his".data, "her".data, "its".data, "our".data, "their".data]

/-- The `is_likely_verb` test of `split_compound_sentence`. -/
def isLikelyVerb (wl : Str) : Bool :=
  decide (wl ∈ AUXILIARIES) || (lookup wl CONTRACTIONS).isSome ||
  (lookup wl IRREGULAR_VERBS).isSome || decide (stripVerbEnding wl ∈ commonVerbs) ||
  (endsWithAny wl ["s".data, "es".data, "ed".data, "ing".data] &&
   (lookup wl PRONOUNS).isNone && !decide (wl ∈ splitStopWords) &&
   decide (wl.length > 2))

/-- The look-ahead test on the word right after a candidate coordinator. -/
def isNewClauseStart (nextWord : Str) : Bool :=
  let nl := lowerS nextWord
  decide (nl ∈ PRONOUNS.map Prod.fst) ||
  decide (nl ∈ ["the".data, "a".data, "an".data, "this".data, "that".data,
                "these".data, "those".data]) ||
  (match nextWord with | c :: _ => c.isUpper | [] => false) ||
  (!decide (nl ∈ clauseCoordinators) && !decide (nl ∈ AUXILIARIES) &&
   (lookup nl IRREGULAR_VERBS).isNone)

/-- The look-ahead test on the second word after a candidate coordinator. -/
def hasFollowingVerb (secondWord : Str) : Bool :=
  let sl := lowerS secondWord
  decide (sl ∈ AUXILIARIES) || (lookup sl IRREGULAR_VERBS).isSome ||
  (lookup sl CONTRACTIONS).isSome || decide (stripVerbEnding sl ∈ commonVerbs) ||
  (endsWithAny sl ["s".data, "es".data, "ed".data, "ing".data] &&
   decide (secondWord.length > 2))

/-- The token-scanning loop of `split_compound_sentence`: `i` is the index of
the current token, the flags mirror `found_first_verb`/`verb_count`. -/
def splitGo : List Token → Nat → List (List Token) → List Token → Bool → Nat →
    List (List Token)
  | [], _, clauses, current, _, _ =>
    if current ≠ [] then clauses ++ [current] else clauses
  | t :: rest, i, clauses, current, foundFirstVerb, verbCount =>
    let wl := lowerS t
    let isVerb := isLikelyVerb wl
    let foundFirstVerb1 := if isVerb ∧ i > 0 then true else foundFirstVerb
    let verbCount1 := if isVerb ∧ i > 0 then verbCount + 1 else verbCount
    if wl ∈ clauseCoordinators ∧ foundFirstVerb1 = true ∧ verbCount1 ≥ 1 ∧
        current.length > 1 ∧ rest.length ≥ 2 then
      match (rest.take 3).filter isWordToken with
      | nextW :: secondW :: _ =>
        if isNewClauseStart nextW ∧ hasFollowingVerb secondW then
          splitGo rest (i + 1) (if current ≠ [] then clauses ++ [current] else clauses)
            [] false 0
        else splitGo rest (i + 1) clauses (current ++ [t]) foundFirstVerb1 verbCount1
      | _ => splitGo rest (i + 1) clauses (current ++ [t]) foundFirstVerb1 verbCount1
    else splitGo rest (i + 1) clauses (current ++ [t]) foundFirstVerb1 verbCount1

/-- `split_compound_sentence(tokens)`. -/
def split_compound_sentence (tokens : List Token) : List (List Token) :=
  let clauses := splitGo tokens 0 [] [] false 0
  if clauses.length ≤ 1 then [tokens] else clauses

/-! ### Compound-sentence analysis (`analyze_compound_sentence`) -/

/-- One entry of the `clause_analyses` list. -/
structure ClauseEntry where
  clause_number : Nat
  text : Str
  analysis : ClauseResult
deriving DecidableEq, Repr

/-- The result dictionary of `analyze_compound_sentence` (parse trees and
problem spans are not modelled). -/
structure CompoundResult where
  status : Status
  message : Str
  clause_count : Nat
  clause_analyses : List ClauseEntry
  suggested_correction : Option Str := none
deriving DecidableEq, Repr

/-- `' '.join([t['text'] for t in clause_tokens])`. -/
def joinTexts (clause_tokens : List Token) : Str :=
  List.intercalate " ".data clause_tokens

/-- Python `text.rstrip(' .')`. -/
def rstripDotSpace (s : Str) : Str :=
  (s.reverse.dropWhile (fun c => c = ' ' ∨ c = '.')).reverse

/-- The corrected (or original) text of one clause, trailing `' .'` stripped. -/
def correctedPart (c : ClauseEntry) : Str :=
  match c.analysis.status, c.analysis.suggested_correction with
  | .error, some sc => rstripDotSpace sc
  | _, _ => rstripDotSpace c.text

/-- The indexed loop assembling `corrected_parts`: after each non-final part
the coordinator of the same index is appended, when one exists. -/
def buildPartsGo (coords : List Str) (total : Nat) : Nat → List ClauseEntry → List Str
  | _, [] => []
  | idx, c :: rest =>
    let part := correctedPart c
    if h : idx + 1 < total ∧ idx < coords.length then
      part :: coords.get ⟨idx, h.2⟩ :: buildPartsGo coords total (idx + 1) rest
    else part :: buildPartsGo coords total (idx + 1) rest

/-- `analyze_compound_sentence(sentence, clauses)`. -/
def analyze_compound_sentence (sentence : Str) (clauses : List (List Token)) :
    CompoundResult :=
  let coordinators :=
    (tokenize sentence).filter (fun t => decide (lowerS t ∈ clauseCoordinators))
  let clause_analyses := clauses.enum.map (fun ic =>
    let text := joinTexts ic.2
    ClauseEntry.mk (ic.1 + 1) text (analyze_single_clause ic.2 text))
  let has_errors := clause_analyses.any (fun c => c.analysis.status = .error)
  if has_errors then
    let error_count :=
      (clause_analyses.filter (fun c => c.analysis.status = .error)).length
    let corrected_parts := buildPartsGo coordinators clause_analyses.length 0 clause_analyses
    let suggested_full_sentence := List.intercalate " ".data corrected_parts ++ ".".data
    { status := .error,
      message := "Found ".data ++ Nat.toDigits 10 error_count ++
        " error(s) in compound sentence.".data,
      clause_count := clauses.length,
      clause_analyses := clause_analyses,
      suggested_correction := some suggested_full_sentence }
  else
    { status := .ok,
      message := "All ".data ++ Nat.toDigits 10 clauses.length ++
        " clauses have correct subject-verb agreement.".data,
      clause_count := clauses.length,
      clause_analyses := clause_analyses,
      suggested_correction := none }

/-! ### The entry point (`analyze`) -/

/-- The two result shapes `analyze` can return. -/
inductive AnalyzeResult where
  | single : ClauseResult → AnalyzeResult
  | compound : CompoundResult → AnalyzeResult
deriving DecidableEq, Repr

/-- The `status` field of either result shape. -/
def AnalyzeResult.status : AnalyzeResult → Status
  | .single c => c.status
  | .compound c => c.status

/-- `analyze(sentence)`. -/
def analyze (sentence : Str) : AnalyzeResult :=
  let tokens := tokenize sentence
  let words := wordTokens tokens
  if words = [] then
    .single { status := .error,
              message := "Unable to parse sentence (too short or not supported).".data }
  else
    let clauses := split_compound_sentence tokens
    if clauses.length > 1 then .compound (analyze_compound_sentence sentence clauses)
    else .single (analyze_single_clause tokens sentence)

/-! ### Definitions used by the verified statements -/

/-- The subject number used by `analyze_single_clause`: the compound number
when a compound subject was detected, else the classified noun number. -/
def subjectNumberOf (compound_info : Option CompoundInfo) (subj : Str) : Number :=
  match compound_info with
  | some ci => ci.compound_number
  | none => (classify_noun subj).2

/-- Joining parts with coordinators in clause order (a structural rendering
of the indexed `corrected_parts` loop, proved equivalent to it): each
non-final part is followed by the coordinator of the same index while
coordinators remain. -/
def weave : List Str → List Str → List Str
  | [], _ => []
  | [p], _ => [p]
  | p :: ps, [] => p :: weave ps []
  | p :: ps, c :: cs => p :: c :: weave ps cs

/-- The compound rules R3 and R4.1–R4.4 of the table. -/
def compoundRules : List CSGRule := [R3, R4_1, R4_2, R4_3, R4_4]

/-- The category tags `classify_noun` can produce. -/
def nounCategoryTags : List Str :=
  [indefiniteW, pronounW, singularPluralW, collectiveW, unitW, regularW]

/-! ## Helper lemmas -/

theorem lookup_eq_none_of_ne {β : Type} {w : Str} {tbl : List (Str × β)}
    (h : ∀ p ∈ tbl, w ≠ p.1) : lookup w tbl = none := by
  induction tbl with
  | nil => rfl
  | cons p rest ih =>
    simp only [lookup]
    rw [if_neg (h p (by simp))]
    exact ih (fun q hq => h q (by simp [hq]))

theorem lookup_eq_some_mem {β : Type} {w : Str} {tbl : List (Str × β)} {b : β}
    (h : lookup w tbl = some b) : ∃ p ∈ tbl, p.1 = w ∧ p.2 = b := by
  induction tbl with
  | nil => simp [lookup] at h
  | cons p rest ih =>
    simp only [lookup] at h
    by_cases hw : w = p.1
    · rw [if_pos hw] at h
      exact ⟨p, by simp, hw.symm, by injection h with h2⟩
    · rw [if_neg hw] at h
      obtain ⟨q, hq, h1, h2⟩ := ih h
      exact ⟨q, by simp [hq], h1, h2⟩

theorem revTake_append {n : Nat} (u v : Str) (h : n ≤ v.length) :
    revTake n (u ++ v) = revTake n v := by
  unfold revTake
  rw [List.reverse_append, List.take_append_of_le_length (by simpa using h)]

theorem ne_of_revTake (n : Nat) {w k : Str} (h : revTake n w ≠ revTake n k) : w ≠ k :=
  fun e => h (by rw [e])

theorem endsWith_append (u sfx : Str) : endsWith (u ++ sfx) sfx = true := by
  unfold endsWith
  rw [revTake_append u sfx le_rfl]
  simp [revTake]

theorem lowerS_append (a b : Str) : lowerS (a ++ b) = lowerS a ++ lowerS b :=
  List.map_append _ a b

theorem lowerS_take (a : Str) (n : Nat) : lowerS (a.take n) = (lowerS a).take n :=
  List.map_take _ a n

theorem lowerS_length (a : Str) : (lowerS a).length = a.length :=
  List.length_map a _

/-! ## C10 -/

/-- **C10**: on any parse string `NP[singular] VP[<n>]`, the first matching
rule is R1.1 and it replaces only the separating space, yielding
`NP[singular]VP[singular]VP[<n>]` with the original VP tag retained; the
`is_correct` component is therefore `true` whenever the rule fires, even
for the mismatched tag `n = plural`; and `analyze_single_clause` does not
consult the flag when deciding the status: on "The cat run." the flag is
`true` yet the status is `error`. -/
theorem c10_r11_space_rewrite :
    (∀ n : Number,
      apply_csg_derivation ("NP[singular] VP[".data ++ n.toStr ++ "]".data) .singular =
        ([⟨0, "NP[singular] VP[".data ++ n.toStr ++ "]".data, none⟩,
          ⟨1, "NP[singular]VP[singular]VP[".data ++ n.toStr ++ "]".data, some "R1.1".data⟩],
         "NP[singular]VP[singular]VP[".data ++ n.toStr ++ "]".data, true)) ∧
    (apply_csg_derivation "NP[singular] VP[plural]".data .singular).2.2 = true ∧
    (analyze_single_clause (tokenize "The cat run.".data) "The cat run.".data).status =
      .error := by
  refine ⟨fun n => ?_, by decide, by decide⟩
  cases n <;> decide

/-! ## C2 -/

/-- **C2** counterexample: the claim asserts that for *every* pair of subject
words X, Y the detector returns a compound result on "X and Y".  For
X = "cats", Y = "dogs" (both classified plural subject words) the
verb-before-coordinator heuristic rejects the candidate ("cats" ends in
`s`, is not a pronoun and is longer than 3), so no compound is returned at
all. -/
theorem c2_counterexample :
    detect_compound_subject ["cats".data, "and".data, "dogs".data] = none ∧
    (classify_noun "cats".data).2 = .plural ∧
    (classify_noun "dogs".data).2 = .plural := by decide

/-! ## C4 -/

/-- **C4** counterexample: the regular verb "buses" (in neither the
contraction nor irregular lexicon) classifies as `singular`; correcting it
towards `plural` strips `es` (its base "bus" ends in `s`), but the result
"bus" again classifies as `singular`, not the target `plural`. -/
theorem c4_counterexample :
    lookup (lowerS "buses".data) CONTRACTIONS = none ∧
    lookup (lowerS "buses".data) IRREGULAR_VERBS = none ∧
    classify_verb "buses".data = .singular ∧
    get_correct_verb_form "buses".data .plural = "bus".data ∧
    classify_verb (get_correct_verb_form "buses".data .plural) = .singular := by decide

/-! ## C6 -/

/-- **C6** counterexample: on the clause "The cats runs runs." the verb token
is the first "runs" and the corrected verb is "run"; the claim predicts
that only the first occurrence is replaced ("The cats run runs."), but the
engine uses Python `str.replace`, which replaces every occurrence, giving
"The cats run run.". -/
theorem c6_counterexample :
    (analyze_single_clause (tokenize "The cats runs runs.".data)
        "The cats runs runs.".data).suggested_correction =
      some "The cats run run.".data ∧
    "The cats run run.".data ≠ "The cats run runs.".data := by decide

/-! ## C1 -/

/-- If a clause has no word tokens, `find_subject_and_verb` returns no
subject and no verb. -/
theorem find_subject_and_verb_nil {tokens : List Token} {ci : Option CompoundInfo}
    (h : wordTokens tokens = []) : find_subject_and_verb tokens ci = (none, none) := by
  simp only [find_subject_and_verb, h]

/-- **C1**: whenever `analyze_single_clause` locates both a subject and a
verb, the returned status is `ok` iff the classified subject number (the
compound number when a compound subject was detected) equals the
classified verb number, and `error` iff they differ. -/
theorem c1_status_ok_iff_numbers_agree (tokens : List Token) (clause_text : Str)
    (subj verb : Str)
    (hsv : find_subject_and_verb tokens (detect_compound_subject (wordTokens tokens)) =
      (some subj, some verb)) :
    ((analyze_single_clause tokens clause_text).status = .ok ↔
      subjectNumberOf (detect_compound_subject (wordTokens tokens)) subj =
        classify_verb verb) ∧
    ((analyze_single_clause tokens clause_text).status = .error ↔
      subjectNumberOf (detect_compound_subject (wordTokens tokens)) subj ≠
        classify_verb verb) := by
  have hw : ¬ wordTokens tokens = [] := by
    intro h
    rw [find_subject_and_verb_nil h] at hsv
    simp at hsv
  simp only [analyze_single_clause]
  rw [if_neg hw, hsv]
  simp only [subjectNumberOf]
  cases hci : detect_compound_subject (wordTokens tokens) with
  | none =>
    by_cases hn : (classify_noun subj).2 = classify_verb verb
    · rw [if_pos hn]; simp [hn]
    · rw [if_neg hn]; simp [hn]
  | some ci =>
    by_cases hn : ci.compound_number = classify_verb verb
    · rw [if_pos hn]; simp [hn]
    · rw [if_neg hn]; simp [hn]

/-- **C1** witness: on "The cat runs." the locator returns subject "cat" and
verb "runs", and the status is `ok` (both numbers are singular). -/
theorem c1_witness :
    (analyze_single_clause (tokenize "The cat runs.".data) "The cat runs.".data).status =
      .ok :=
  (c1_status_ok_iff_numbers_agree (tokenize "The cat runs.".data) "The cat runs.".data
    "cat".data "runs".data (by decide)).1.mpr (by decide)

/-! ## C5 -/

/-- **C5**: `analyze` is a total function (the embedding returns a result for
every input, so no exception can propagate), and all unparsable inputs are
reported through the `status` field: an input with no word tokens yields
the `error` result of `analyze` (resp. of `analyze_single_clause`), and a
clause whose locator fails to produce a verb or a subject yields the
`error` result with the descriptive message, never a fault. -/
theorem c5_total_error_handling :
    (∀ sentence : Str, wordTokens (tokenize sentence) = [] →
      analyze sentence = .single ⟨.error,
        "Unable to parse sentence (too short or not supported).".data, none, [], none⟩) ∧
    (∀ (tokens : List Token) (clause_text : Str), wordTokens tokens = [] →
      analyze_single_clause tokens clause_text =
        ⟨.error, "Unable to parse clause (too short).".data, none, [], none⟩) ∧
    (∀ (tokens : List Token) (clause_text : Str),
      ((find_subject_and_verb tokens (detect_compound_subject (wordTokens tokens))).2 = none ∨
       (find_subject_and_verb tokens (detect_compound_subject (wordTokens tokens))).1 = none) →
      ¬ wordTokens tokens = [] →
      analyze_single_clause tokens clause_text =
        ⟨.error, "Unable to identify subject and verb.".data, none, [], none⟩) ∧
    (∀ sentence : Str, (analyze sentence).status = .ok ∨ (analyze sentence).status = .error) := by
  refine ⟨?_, ?_, ?_, ?_⟩
  · intro s h
    simp only [analyze]
    rw [if_pos h]
  · intro tokens clause_text h
    simp only [analyze_single_clause]
    rw [if_pos h]
  · intro tokens clause_text hnone hne
    simp only [analyze_single_clause]
    rw [if_neg hne]
    rcases hp : find_subject_and_verb tokens
        (detect_compound_subject (wordTokens tokens)) with ⟨s?, v?⟩
    rw [hp] at hnone
    cases s? with
    | none => rfl
    | some s =>
      cases v? with
      | none => rfl
      | some v => simp at hnone
  · intro s
    cases h : (analyze s).status
    · exact Or.inl rfl
    · exact Or.inr rfl

/-- **C5** witness: the pure-punctuation input "?!" produces the `error`
result, and the one-word clause "cat." (no verb can be located) produces
the subject/verb error result. -/
theorem c5_witness :
    analyze "?!".data = .single ⟨.error,
      "Unable to parse sentence (too short or not supported).".data, none, [], none⟩ ∧
    analyze_single_clause (tokenize "cat.".data) "cat.".data =
      ⟨.error, "Unable to identify subject and verb.".data, none, [], none⟩ :=
  ⟨c5_total_error_handling.1 "?!".data (by decide),
   c5_total_error_handling.2.2.1 (tokenize "cat.".data) "cat.".data
     (Or.inl (by decide)) (by decide)⟩

/-! ## C3 -/

theorem scanPosGo_some {r : CSGRule} {s : Str} :
    ∀ (fuel pos p : Nat), scanPosGo r s pos fuel = some p →
      pos ≤ p ∧ r.matches s p = true ∧
        ∀ q, pos ≤ q → q < p → r.matches s q = false := by
  intro fuel
  induction fuel with
  | zero => intro pos p h; simp [scanPosGo] at h
  | succ n ih =>
    intro pos p h
    simp only [scanPosGo] at h
    by_cases hm : r.matches s pos = true
    · rw [if_pos hm] at h
      injection h with h2
      subst h2
      exact ⟨le_rfl, hm, fun q h1 h2 => by omega⟩
    · rw [if_neg hm] at h
      obtain ⟨h1, h2, h3⟩ := ih (pos + 1) p h
      refine ⟨by omega, h2, fun q hq1 hq2 => ?_⟩
      by_cases hq : q = pos
      · subst hq
        simpa using hm
      · exact h3 q (by omega) hq2

theorem scanPosGo_none {r : CSGRule} {s : Str} :
    ∀ (fuel pos : Nat), scanPosGo r s pos fuel = none →
      ∀ q, pos ≤ q → q < pos + fuel → r.matches s q = false := by
  intro fuel
  induction fuel with
  | zero => intro pos h q h1 h2; omega
  | succ n ih =>
    intro pos h q h1 h2
    simp only [scanPosGo] at h
    by_cases hm : r.matches s pos = true
    · rw [if_pos hm] at h; cases h
    · rw [if_neg hm] at h
      by_cases hq : q = pos
      · subst hq; simpa using hm
      · exact ih (pos + 1) h q (by omega) (by omega)

/-- A match fits inside the string. -/
theorem matches_le_length {r : CSGRule} {s : Str} {p : Nat}
    (h : r.matches s p = true) : p + r.symbol.length ≤ s.length := by
  unfold CSGRule.matches at h
  by_cases hb : p + r.symbol.length > s.length
  · rw [if_pos hb] at h; cases h
  · omega

/-- Every rule of the table has a non-empty symbol. -/
theorem symbols_nonempty : ∀ r ∈ CSG_PRODUCTION_RULES, r.symbol ≠ [] := by decide

theorem scanPos_none {r : CSGRule} {s : Str} (h : scanPos r s = none)
    (hsym : r.symbol ≠ []) : ∀ q, r.matches s q = false := by
  intro q
  by_cases hq : q < s.length
  · exact scanPosGo_none s.length 0 h q (Nat.zero_le q) (by omega)
  · by_contra hc
    rw [Bool.not_eq_false] at hc
    have h1 := matches_le_length hc
    have h2 : 0 < r.symbol.length := List.length_pos.mpr hsym
    omega

theorem scanPos_some {r : CSGRule} {s : Str} {p : Nat} (h : scanPos r s = some p) :
    r.matches s p = true ∧ ∀ q < p, r.matches s q = false := by
  obtain ⟨_, h2, h3⟩ := scanPosGo_some s.length 0 p h
  exact ⟨h2, fun q hq => h3 q (Nat.zero_le q) hq⟩

theorem firstMatch_none {s : Str} :
    ∀ rules : List CSGRule, firstMatch rules s = none →
      ∀ r ∈ rules, scanPos r s = none := by
  intro rules
  induction rules with
  | nil => intro _ r hr; simp at hr
  | cons a rest ih =>
    intro h r hr
    simp only [firstMatch] at h
    rcases hsp : scanPos a s with _ | p
    · rw [hsp] at h
      rcases List.mem_cons.mp hr with rfl | hr2
      · exact hsp
      · exact ih h r hr2
    · rw [hsp] at h; cases h

theorem firstMatch_some {s : Str} :
    ∀ (rules : List CSGRule) (r : CSGRule) (p : Nat),
      firstMatch rules s = some (r, p) →
      ∃ pre post, rules = pre ++ r :: post ∧
        (∀ r2 ∈ pre, scanPos r2 s = none) ∧ scanPos r s = some p := by
  intro rules
  induction rules with
  | nil => intro r p h; simp [firstMatch] at h
  | cons a rest ih =>
    intro r p h
    simp only [firstMatch] at h
    rcases hsp : scanPos a s with _ | q
    · rw [hsp] at h
      obtain ⟨pre, post, h1, h2, h3⟩ := ih r p h
      refine ⟨a :: pre, post, by simp [h1], ?_, h3⟩
      intro r2 hr2
      rcases List.mem_cons.mp hr2 with rfl | hr3
      · exact hsp
      · exact h2 r2 hr3
    · rw [hsp] at h
      injection h with h2
      injection h2 with h3 h4
      subst h3; subst h4
      exact ⟨[], rest, rfl, by simp, hsp⟩

/-- **C3**: `apply_csg_derivation` performs at most one rewrite: step 0 of
the returned derivation is always the initial string, the derivation has at
most one further step, and when a step exists it applies the first rule in
table order that matches anywhere, at the leftmost position where that rule
matches, with every earlier rule of the table matching nowhere; when no
rule matches, the derivation is exactly the initial step and the final
string is the initial string. -/
theorem c3_single_rewrite_derivation (ps : Str) (n : Number) :
    (apply_csg_derivation ps n).1.head? = some ⟨0, ps, none⟩ ∧
    (apply_csg_derivation ps n).1.length ≤ 2 ∧
    (firstMatch CSG_PRODUCTION_RULES ps = none →
      (apply_csg_derivation ps n).1 = [⟨0, ps, none⟩] ∧
      (apply_csg_derivation ps n).2.1 = ps ∧
      ∀ r ∈ CSG_PRODUCTION_RULES, ∀ q, r.matches ps q = false) ∧
    (∀ r p, firstMatch CSG_PRODUCTION_RULES ps = some (r, p) →
      (apply_csg_derivation ps n).1 =
        [⟨0, ps, none⟩, ⟨1, r.applyAt ps p, some r.rule_id⟩] ∧
      (apply_csg_derivation ps n).2.1 = r.applyAt ps p ∧
      r.matches ps p = true ∧ (∀ q < p, r.matches ps q = false) ∧
      ∃ pre post, CSG_PRODUCTION_RULES = pre ++ r :: post ∧
        ∀ r2 ∈ pre, ∀ q, r2.matches ps q = false) := by
  refine ⟨?_, ?_, ?_, ?_⟩
  · rcases hfm : firstMatch CSG_PRODUCTION_RULES ps with _ | ⟨r, p⟩ <;>
      simp [apply_csg_derivation, hfm]
  · rcases hfm : firstMatch CSG_PRODUCTION_RULES ps with _ | ⟨r, p⟩ <;>
      simp [apply_csg_derivation, hfm]
  · intro h
    refine ⟨by simp [apply_csg_derivation, h], by simp [apply_csg_derivation, h], ?_⟩
    intro r hr q
    exact scanPos_none (firstMatch_none CSG_PRODUCTION_RULES h r hr)
      (symbols_nonempty r hr) q
  · intro r p h
    obtain ⟨pre, post, he, hpre, hsp⟩ := firstMatch_some CSG_PRODUCTION_RULES r p h
    obtain ⟨hm, hmin⟩ := scanPos_some hsp
    refine ⟨by simp [apply_csg_derivation, h], by simp [apply_csg_derivation, h],
      hm, hmin, pre, post, he, ?_⟩
    intro r3 hr3 q
    have hr3' : r3 ∈ CSG_PRODUCTION_RULES := by
      rw [he]; exact List.mem_append_left _ hr3
    exact scanPos_none (hpre r3 hr3) (symbols_nonempty r3 hr3') q

/-- **C3** witness: on `NP[plural] VP[singular]` the first matching rule is
R1.2 at position 10, so the derivation is exactly the initial step followed
by one rewrite. -/
theorem c3_witness :
    (apply_csg_derivation "NP[plural] VP[singular]".data .plural).1 =
      [⟨0, "NP[plural] VP[singular]".data, none⟩,
       ⟨1, "NP[plural]VP[plural]VP[singular]".data, some "R1.2".data⟩] := by
  have h := (c3_single_rewrite_derivation "NP[plural] VP[singular]".data .plural).2.2.2
    R1_2 10 (by decide)
  rw [h.1]
  decide

/-! ## C9 -/

/-- If the bounded scan of a rule finds nothing, the rule matches nowhere. -/
theorem noMatchOne {r : CSGRule} {s : Str} (h : scanPos r s = none)
    (hsym : r.symbol ≠ []) : ∀ p, r.matches s p = false :=
  scanPos_none h hsym

/-- If the bounded scans of all table rules find nothing, no rule matches. -/
theorem noMatchAll {s : Str} (h : ∀ r ∈ CSG_PRODUCTION_RULES, scanPos r s = none) :
    ∀ r ∈ CSG_PRODUCTION_RULES, ∀ p, r.matches s p = false :=
  fun r hr => scanPos_none (h r hr) (symbols_nonempty r hr)

/-- **C9**: the initial parse string built for a clause with a detected
compound subject, `NP[compound+<coordinator>+<number>] VP[<verbNumber>]`,
matches no rule of `CSG_PRODUCTION_RULES`, so its derivation consists of
step 0 only and `rules_applied` is 0; moreover the compound rules R3 and
R4.1–R4.4 also fire on no engine-generated non-compound initial string. -/
theorem c9_compound_string_no_rule (ci : CompoundInfo) (vn : Number)
    (subject verb : Str)
    (hco : ci.coordinator = "and".data ∨ ci.coordinator = "or".data ∨
      ci.coordinator = "nor".data) :
    ((∀ r ∈ CSG_PRODUCTION_RULES, ∀ p,
      r.matches (create_initial_parse_string subject verb compoundW
        ci.compound_number vn (some ci)) p = false) ∧
    (apply_csg_derivation (create_initial_parse_string subject verb compoundW
        ci.compound_number vn (some ci)) ci.compound_number).1 =
      [⟨0, create_initial_parse_string subject verb compoundW
        ci.compound_number vn (some ci), none⟩] ∧
    rulesAppliedCount ((apply_csg_derivation (create_initial_parse_string subject verb
        compoundW ci.compound_number vn (some ci)) ci.compound_number).1) = 0) ∧
    (∀ (subject2 cat : Str) (sn vnum : Number), cat ∈ nounCategoryTags →
      ∀ r ∈ compoundRules, ∀ p,
        r.matches (create_initial_parse_string subject2 verb cat sn vnum none) p =
          false) := by
  constructor
  · obtain ⟨co, subs, num⟩ := ci
    simp only at hco
    simp only [create_initial_parse_string]
    rcases hco with rfl | rfl | rfl <;> cases num <;> cases vn <;>
      exact ⟨noMatchAll (by decide), by decide, by decide⟩
  · intro subject2 cat sn vnum hcat r hr p
    simp only [nounCategoryTags, List.mem_cons, List.not_mem_nil, or_false] at hcat
    simp only [compoundRules, List.mem_cons, List.not_mem_nil, or_false] at hr
    simp only [create_initial_parse_string]
    by_cases hpron : lowerS subject2 ∈ ["i".data, "you".data] ∧ cat = pronounW
    · rw [if_pos hpron]
      obtain ⟨hmem, -⟩ := hpron
      simp only [List.mem_cons, List.not_mem_nil, or_false] at hmem
      rcases hmem with h2 | h2 <;> rw [h2] <;>
        rcases hr with rfl | rfl | rfl | rfl | rfl <;> cases vnum <;>
        exact noMatchOne (by decide) (by decide) p
    · rw [if_neg hpron]
      rcases hcat with rfl | rfl | rfl | rfl | rfl | rfl <;> cases sn <;> cases vnum <;>
        rcases hr with rfl | rfl | rfl | rfl | rfl <;>
        exact noMatchOne (by decide) (by decide) p

/-- **C9** witness: the compound string for "Mark and Anna" with a singular
verb tag yields a one-step derivation with zero rules applied. -/
theorem c9_witness :
    (apply_csg_derivation (create_initial_parse_string "Mark".data "plays".data compoundW
        .plural .singular (some ⟨"and".data, ("Mark".data, "Anna".data), .plural⟩))
      .plural).1 =
      [⟨0, create_initial_parse_string "Mark".data "plays".data compoundW
        .plural .singular (some ⟨"and".data, ("Mark".data, "Anna".data), .plural⟩),
        none⟩] ∧
    rulesAppliedCount ((apply_csg_derivation (create_initial_parse_string "Mark".data
        "plays".data compoundW .plural .singular
        (some ⟨"and".data, ("Mark".data, "Anna".data), .plural⟩)) .plural).1) = 0 :=
  ⟨(c9_compound_string_no_rule ⟨"and".data, ("Mark".data, "Anna".data), .plural⟩
      .singular "Mark".data "plays".data (Or.inl rfl)).1.2.1,
   (c9_compound_string_no_rule ⟨"and".data, ("Mark".data, "Anna".data), .plural⟩
      .singular "Mark".data "plays".data (Or.inl rfl)).1.2.2⟩

/-! ## C7 -/

/-- Case analysis on the accept step of the compound-subject scan. -/
theorem detectAccept_cases {wl b a : Str} {rec : Option CompoundInfo} {r : CompoundInfo}
    (h : detectAccept wl b a rec = some r) :
    (r.coordinator = "and".data ∧ r.compound_number = .plural ∧ r.subjects = (b, a)) ∨
    ((r.coordinator = "or".data ∨ r.coordinator = "nor".data) ∧
      r.compound_number = (classify_noun r.subjects.2).2 ∧ r.subjects = (b, a)) ∨
    rec = some r := by
  unfold detectAccept at h
  by_cases h1 : wl = "and".data
  · rw [if_pos h1] at h
    injection h with h2
    subst h2
    exact Or.inl ⟨rfl, rfl, rfl⟩
  · rw [if_neg h1] at h
    by_cases h2 : wl = "or".data ∨ wl = "nor".data
    · rw [if_pos h2] at h
      injection h with h3
      subst h3
      exact Or.inr (Or.inl ⟨h2, rfl, rfl⟩)
    · rw [if_neg h2] at h
      exact Or.inr (Or.inr h)

/-- Every compound result of the scan is either an `and` result with plural
number or an `or`/`nor` result whose number is the classified number of
the second (nearer) subject. -/
theorem detectFrom_cases :
    ∀ (l : List Str) (prev : Option Str) (r : CompoundInfo),
      detectFrom prev l = some r →
      (r.coordinator = "and".data ∧ r.compound_number = .plural) ∨
      ((r.coordinator = "or".data ∨ r.coordinator = "nor".data) ∧
        r.compound_number = (classify_noun r.subjects.2).2) := by
  intro l
  induction l with
  | nil => intro prev r h; simp [detectFrom] at h
  | cons w rest ih =>
    intro prev r h
    simp only [detectFrom] at h
    repeat' split at h
    all_goals
      first
      | exact ih _ _ h
      | (rcases detectAccept_cases h with h1 | h1 | h1
         · exact Or.inl ⟨h1.1, h1.2.1⟩
         · exact Or.inr ⟨h1.1, h1.2.1⟩
         · exact ih _ _ h1)

/-- **C7**: whenever `detect_compound_subject` accepts a compound subject
with coordinator "or" or "nor", the returned `compound_number` equals the
classified number of the second (nearer) subject word, whatever the first
subject's number. -/
theorem c7_or_nor_nearest (words : List Str) (r : CompoundInfo)
    (h : detect_compound_subject words = some r)
    (hco : r.coordinator = "or".data ∨ r.coordinator = "nor".data) :
    r.compound_number = (classify_noun r.subjects.2).2 := by
  rcases detectFrom_cases words none r h with h1 | h1
  · rcases hco with h2 | h2 <;> exact absurd (h2.symm.trans h1.1) (by decide)
  · exact h1.2

/-- **C7** witness: on "cat or dogs" the detector accepts with coordinator
"or" and the compound number is the classified (plural) number of "dogs". -/
theorem c7_witness :
    detect_compound_subject ["cat".data, "or".data, "dogs".data] =
      some ⟨"or".data, ("cat".data, "dogs".data), .plural⟩ ∧
    (⟨"or".data, ("cat".data, "dogs".data), .plural⟩ : CompoundInfo).compound_number =
      (classify_noun ("dogs".data : Str)).2 :=
  ⟨by decide,
   c7_or_nor_nearest ["cat".data, "or".data, "dogs".data]
     ⟨"or".data, ("cat".data, "dogs".data), .plural⟩ (by decide) (Or.inl rfl)⟩

/-- At the first scan position there is no preceding word, so the scan always
moves on. -/
theorem detectFrom_none_step (w : Str) (l : List Str) :
    detectFrom none (w :: l) = detectFrom (some w) l := by
  simp only [detectFrom]
  split <;> rfl

/-- Exhaustive evaluation of the scan on a three-word list `X and Y`: it
either rejects (verb-like X, determiner Y) or accepts with coordinator
"and", subjects (X, Y) and plural number. -/
theorem detectFrom_and_pair (X Y : Str) :
    detectFrom (some X) ["and".data, Y] = none ∨
    detectFrom (some X) ["and".data, Y] = some ⟨"and".data, (X, Y), .plural⟩ := by
  have hand : lowerS "and".data = "and".data := by decide
  have hnil : ∀ z : Str, detectFrom (some z) [Y] = none := by
    intro z
    simp only [detectFrom]
    split <;> simp [detectFrom]
  by_cases hvb : isVerbBefore (lowerS X) = true
  · left
    simp [detectFrom, hand, hvb, hnil, subjectCoordinators]
  · by_cases hdet : lowerS Y ∈ determiners
    · left
      simp [detectFrom, hand, hvb, hdet, hnil, subjectCoordinators, List.dropWhile]
    · by_cases hpr : (lookup (lowerS Y) PRONOUNS).isSome = true
      · right
        simp [detectFrom, hand, hvb, hdet, hpr, subjectCoordinators, List.dropWhile,
          detectAccept]
      · right
        simp [detectFrom, hand, hvb, hdet, hpr, subjectCoordinators, List.dropWhile,
          detectAccept]

/-- **C2** (amended): whenever `detect_compound_subject` on the word sequence
"X and Y" returns a compound result at all, its `compound_number` is
plural, regardless of the individual classified numbers of X and Y. -/
theorem c2_amended_and_compound_plural (X Y : Str) (r : CompoundInfo)
    (h : detect_compound_subject [X, "and".data, Y] = some r) :
    r.compound_number = .plural := by
  rw [detect_compound_subject, detectFrom_none_step] at h
  rcases detectFrom_and_pair X Y with he | he
  · rw [he] at h; cases h
  · rw [he] at h
    injection h with h2
    subst h2
    rfl

/-- **C2** witness: on "Mark and Anna" the detector accepts and the amended
theorem yields the plural compound number. -/
theorem c2_witness :
    detect_compound_subject ["Mark".data, "and".data, "Anna".data] =
      some ⟨"and".data, ("Mark".data, "Anna".data), .plural⟩ ∧
    (⟨"and".data, ("Mark".data, "Anna".data), .plural⟩ : CompoundInfo).compound_number =
      .plural :=
  ⟨by decide,
   c2_amended_and_compound_plural "Mark".data "Anna".data
     ⟨"and".data, ("Mark".data, "Anna".data), .plural⟩ (by decide)⟩

/-- **C6** (amended): for every mismatched clause, the suggested correction
equals the clause text with *every* occurrence of the verb token's surface
form replaced by the corrected verb (Python `str.replace` semantics), not
only the first occurrence. -/
theorem c6_amended_replace_all (tokens : List Token) (clause_text : Str)
    (subj verb : Str)
    (hsv : find_subject_and_verb tokens (detect_compound_subject (wordTokens tokens)) =
      (some subj, some verb))
    (hmis : subjectNumberOf (detect_compound_subject (wordTokens tokens)) subj ≠
      classify_verb verb) :
    (analyze_single_clause tokens clause_text).suggested_correction =
      some (pyReplace clause_text verb
        (get_correct_verb_form verb
          (subjectNumberOf (detect_compound_subject (wordTokens tokens)) subj))) := by
  have hw : ¬ wordTokens tokens = [] := by
    intro h
    rw [find_subject_and_verb_nil h] at hsv
    simp at hsv
  simp only [analyze_single_clause]
  rw [if_neg hw, hsv]
  simp only [subjectNumberOf] at hmis ⊢
  cases hci : detect_compound_subject (wordTokens tokens) with
  | none =>
    rw [hci] at hmis
    simp only [if_neg hmis]
  | some ci =>
    rw [hci] at hmis
    simp only [if_neg hmis]

/-- **C6** witness: on the clause "The cats runs runs." the suggested
correction is the all-occurrence replacement of "runs" by "run". -/
theorem c6_witness :
    (analyze_single_clause (tokenize "The cats runs runs.".data)
        "The cats runs runs.".data).suggested_correction =
      some (pyReplace "The cats runs runs.".data "runs".data
        (get_correct_verb_form "runs".data .plural)) ∧
    pyReplace "The cats runs runs.".data "runs".data
      (get_correct_verb_form "runs".data .plural) = "The cats run run.".data := by
  constructor
  · have h := c6_amended_replace_all (tokenize "The cats runs runs.".data)
      "The cats runs runs.".data "cats".data "runs".data (by decide) (by decide)
    exact h.trans (by decide)
  · decide

/-! ## C8 -/

/-- The indexed `corrected_parts` loop agrees with the structural
interleaving of parts and coordinators. -/
theorem buildPartsGo_eq_weave (coords : List Str) :
    ∀ (entries : List ClauseEntry) (idx total : Nat), total = idx + entries.length →
      buildPartsGo coords total idx entries =
        weave (entries.map correctedPart) (coords.drop idx) := by
  intro entries
  induction entries with
  | nil => intro idx total h; simp [buildPartsGo, weave]
  | cons c rest ih =>
    intro idx total h
    simp only [buildPartsGo, List.map]
    by_cases h1 : idx + 1 < total ∧ idx < coords.length
    · rw [dif_pos h1]
      have hrest : rest ≠ [] := by
        intro he
        subst he
        simp at h
        omega
      obtain ⟨r0, rrest, rfl⟩ : ∃ r0 rrest, rest = r0 :: rrest := by
        cases rest with
        | nil => exact absurd rfl hrest
        | cons a b => exact ⟨a, b, rfl⟩
      have hdrop : coords.drop idx = coords.get ⟨idx, h1.2⟩ :: coords.drop (idx + 1) :=
        List.drop_eq_getElem_cons h1.2
      rw [hdrop, ih (idx + 1) total (by simp at h ⊢; omega)]
      simp [weave]
    · rw [dif_neg h1]
      cases rest with
      | nil => simp [weave, buildPartsGo]
      | cons r0 rrest =>
        have h2 : idx + 1 < total := by simp at h; omega
        have h3 : coords.length ≤ idx := by
          by_contra hc
          exact h1 ⟨h2, by omega⟩
        have hd1 : coords.drop idx = [] := List.drop_eq_nil_of_le h3
        have hd2 : coords.drop (idx + 1) = [] := List.drop_eq_nil_of_le (by omega)
        rw [hd1, ih (idx + 1) total (by simp at h ⊢; omega), hd2]
        simp [weave]

/-- **C8**: for a compound sentence, the overall status is `error` iff at
least one clause's analysis has status `error`, and in that case the
suggested correction is the per-clause corrected (or original, trailing
`' .'` stripped) texts joined with the coordinators extracted from the
original sentence, in clause order, with terminal punctuation re-appended. -/
theorem c8_compound_status_and_join (sentence : Str) (clauses : List (List Token)) :
    ((analyze_compound_sentence sentence clauses).status = .error ↔
      ∃ e ∈ (analyze_compound_sentence sentence clauses).clause_analyses,
        e.analysis.status = .error) ∧
    ((analyze_compound_sentence sentence clauses).status = .error →
      (analyze_compound_sentence sentence clauses).suggested_correction =
        some (List.intercalate " ".data
          (weave
            ((analyze_compound_sentence sentence clauses).clause_analyses.map
              correctedPart)
            ((tokenize sentence).filter
              (fun t => decide (lowerS t ∈ clauseCoordinators)))) ++
          ".".data)) := by
  simp only [analyze_compound_sentence]
  set CA := (clauses.enum.map fun ic =>
    ClauseEntry.mk (ic.1 + 1) (joinTexts ic.2)
      (analyze_single_clause ic.2 (joinTexts ic.2))) with hCA
  set coords := (tokenize sentence).filter
    (fun t => decide (lowerS t ∈ clauseCoordinators)) with hco
  by_cases hE : (CA.any (fun c => decide (c.analysis.status = .error))) = true
  · rw [if_pos hE]
    simp only [List.any_eq_true, decide_eq_true_eq] at hE
    refine ⟨⟨fun _ => hE, fun _ => rfl⟩, fun _ => ?_⟩
    show some (List.intercalate " ".data (buildPartsGo coords CA.length 0 CA) ++ ".".data) =
      some (List.intercalate " ".data (weave (CA.map correctedPart) coords) ++ ".".data)
    rw [buildPartsGo_eq_weave coords CA 0 CA.length (by simp), List.drop_zero]
  · rw [if_neg hE]
    simp only [List.any_eq_true, decide_eq_true_eq, not_exists] at hE
    refine ⟨⟨fun hcon => absurd hcon (by simp), ?_⟩, fun hcon => absurd hcon (by simp)⟩
    rintro ⟨e, he, hst⟩
    exact (hE e ⟨he, hst⟩).elim

/-- **C8** witness: "I work and they plays." splits into two clauses, the
second errs, the overall status is `error` and the reconstructed correction
is "I work and they play.". -/
theorem c8_witness :
    (analyze_compound_sentence "I work and they plays.".data
      (split_compound_sentence (tokenize "I work and they plays.".data))).status =
        .error ∧
    (analyze_compound_sentence "I work and they plays.".data
      (split_compound_sentence (tokenize "I work and they plays.".data))).suggested_correction =
      some "I work and they play.".data := by
  have h := c8_compound_status_and_join "I work and they plays.".data
    (split_compound_sentence (tokenize "I work and they plays.".data))
  have hs : (analyze_compound_sentence "I work and they plays.".data
      (split_compound_sentence (tokenize "I work and they plays.".data))).status =
        .error := by decide
  refine ⟨hs, ?_⟩
  rw [h.2 hs]
  decide

/-! ## C4 -/

theorem endsWith_of_revTake {w sfx : Str} (h : revTake sfx.length w = sfx.reverse) :
    endsWith w sfx = true := by
  simp [endsWith, h]

/-- Appending `es` to a verb not in the irregular lexicon yields a form that
classifies as singular. -/
theorem classify_append_es (V : Str)
    (hi : lookup (lowerS V) IRREGULAR_VERBS = none) :
    classify_verb (V ++ "es".data) = .singular := by
  have hlow : lowerS (V ++ "es".data) = lowerS V ++ "es".data := by
    rw [lowerS_append, show lowerS "es".data = "es".data from by decide]
  set v := lowerS V with hv
  have hrt1 : revTake 1 (v ++ "es".data) = ['s'] :=
    (revTake_append v "es".data (by decide)).trans (by decide)
  have hrt2 : revTake 2 (v ++ "es".data) = ['s', 'e'] :=
    (revTake_append v "es".data (by decide)).trans (by decide)
  have hcontr : lookup (v ++ "es".data) CONTRACTIONS = none := by
    apply lookup_eq_none_of_ne
    intro p hp
    apply ne_of_revTake 1
    rw [hrt1, (by decide : ∀ p ∈ CONTRACTIONS, revTake 1 p.1 = ['t']) p hp]
    decide
  have hirr : lookup (v ++ "es".data) IRREGULAR_VERBS = none := by
    by_cases hdoes : v ++ "es".data = "does".data
    · have hvdo : v = "do".data := by
        have h2 : v ++ "es".data = "do".data ++ "es".data := hdoes
        exact List.append_cancel_right h2
      rw [hvdo] at hi
      exact absurd hi (by decide)
    · apply lookup_eq_none_of_ne
      intro p hp
      by_cases hp2 : p.1 = "does".data
      · rw [hp2]; exact hdoes
      · apply ne_of_revTake 2
        rw [hrt2]
        exact ((by decide : ∀ p ∈ IRREGULAR_VERBS, p.1 ≠ "does".data →
          revTake 2 p.1 ≠ ['s', 'e']) p hp hp2).symm
  have hmem : v ++ "es".data ∉ verbSExceptions := by
    intro hmem
    simp only [verbSExceptions, List.mem_cons, List.not_mem_nil, or_false] at hmem
    rcases hmem with h | h | h | h
    · exact absurd ((congrArg (revTake 2) h).symm.trans hrt2) (by decide)
    · exact absurd ((congrArg (revTake 2) h).symm.trans hrt2) (by decide)
    · exact absurd ((congrArg (revTake 2) h).symm.trans hrt2) (by decide)
    · rw [h] at hirr
      exact absurd hirr (by decide)
  have hend : endsWith (v ++ "es".data) "s".data = true :=
    endsWith_of_revTake ((revTake_append v "es".data (by decide)).trans (by decide))
  simp only [classify_verb, hlow, hcontr, hirr]
  rw [if_pos ⟨hend, hmem⟩]

/-- Appending `ies` to any word yields a form that classifies as singular. -/
theorem classify_append_ies (x : Str) : classify_verb (x ++ "ies".data) = .singular := by
  have hlow : lowerS (x ++ "ies".data) = lowerS x ++ "ies".data := by
    rw [lowerS_append, show lowerS "ies".data = "ies".data from by decide]
  set v := lowerS x with hv
  have hrt1 : revTake 1 (v ++ "ies".data) = ['s'] :=
    (revTake_append v "ies".data (by decide)).trans (by decide)
  have hrt3 : revTake 3 (v ++ "ies".data) = ['s', 'e', 'i'] :=
    (revTake_append v "ies".data (by decide)).trans (by decide)
  have hcontr : lookup (v ++ "ies".data) CONTRACTIONS = none := by
    apply lookup_eq_none_of_ne
    intro p hp
    apply ne_of_revTake 1
    rw [hrt1, (by decide : ∀ p ∈ CONTRACTIONS, revTake 1 p.1 = ['t']) p hp]
    decide
  have hirr : lookup (v ++ "ies".data) IRREGULAR_VERBS = none := by
    apply lookup_eq_none_of_ne
    intro p hp
    apply ne_of_revTake 3
    rw [hrt3]
    exact ((by decide : ∀ p ∈ IRREGULAR_VERBS, revTake 3 p.1 ≠ ['s', 'e', 'i']) p hp).symm
  have hmem : v ++ "ies".data ∉ verbSExceptions := by
    intro hmem
    exact (by decide : ∀ k ∈ verbSExceptions, revTake 3 k ≠ ['s', 'e', 'i']) _ hmem hrt3
  have hend : endsWith (v ++ "ies".data) "s".data = true :=
    endsWith_of_revTake ((revTake_append v "ies".data (by decide)).trans (by decide))
  simp only [classify_verb, hlow, hcontr, hirr]
  rw [if_pos ⟨hend, hmem⟩]

/-- Appending `s` to any word yields a form that classifies as singular. -/
theorem classify_append_s (V : Str) : classify_verb (V ++ "s".data) = .singular := by
  have hlow : lowerS (V ++ "s".data) = lowerS V ++ "s".data := by
    rw [lowerS_append, show lowerS "s".data = "s".data from by decide]
  set v := lowerS V with hv
  have hrt1 : revTake 1 (v ++ "s".data) = ['s'] :=
    (revTake_append v "s".data (by decide)).trans (by decide)
  have hcontr : lookup (v ++ "s".data) CONTRACTIONS = none := by
    apply lookup_eq_none_of_ne
    intro p hp
    apply ne_of_revTake 1
    rw [hrt1, (by decide : ∀ p ∈ CONTRACTIONS, revTake 1 p.1 = ['t']) p hp]
    decide
  have hend : endsWith (v ++ "s".data) "s".data = true :=
    endsWith_of_revTake ((revTake_append v "s".data (by decide)).trans (by decide))
  rcases hirr : lookup (v ++ "s".data) IRREGULAR_VERBS with _ | pr
  · have hmem : v ++ "s".data ∉ verbSExceptions := by
      intro hmem
      have : lookup (v ++ "s".data) IRREGULAR_VERBS ≠ none := by
        simp only [verbSExceptions, List.mem_cons, List.not_mem_nil, or_false] at hmem
        rcases hmem with h | h | h | h <;> rw [h] <;> decide
      exact this hirr
    simp only [classify_verb, hlow, hcontr, hirr]
    rw [if_pos ⟨hend, hmem⟩]
  · obtain ⟨p, hp, hpe, hpv⟩ := lookup_eq_some_mem hirr
    have hsing : p.2.1 = .singular :=
      (by decide : ∀ p ∈ IRREGULAR_VERBS, revTake 1 p.1 = ['s'] →
        p.2.1 = Number.singular) p hp (by rw [hpe]; exact hrt1)
    simp only [classify_verb, hlow, hcontr, hirr]
    rw [← hpv]
    exact hsing

/-- **C4** (amended): for every regular verb V (in neither the contraction
nor irregular-verb lexicon) whose classified number differs from the
target number `singular`, the corrected form classifies as `singular`:
`classify_verb (get_correct_verb_form V singular) = singular`.  (For the
target `plural` the claimed convergence fails, e.g. at V = "buses".) -/
theorem c4_amended_singular_convergence (V : Str)
    (hc : lookup (lowerS V) CONTRACTIONS = none)
    (hi : lookup (lowerS V) IRREGULAR_VERBS = none)
    (hn : classify_verb V = .plural) :
    classify_verb (get_correct_verb_form V .singular) = .singular := by
  have hends : endsWith (lowerS V) "s".data = false := by
    by_contra hcon
    rw [Bool.not_eq_false] at hcon
    by_cases hmem : lowerS V ∈ verbSExceptions
    · have : lookup (lowerS V) IRREGULAR_VERBS ≠ none := by
        simp only [verbSExceptions, List.mem_cons, List.not_mem_nil, or_false] at hmem
        rcases hmem with h | h | h | h <;> rw [h] <;> decide
      exact this hi
    · have : classify_verb V = .singular := by
        simp only [classify_verb, hc, hi]
        rw [if_pos ⟨hcon, hmem⟩]
      rw [this] at hn
      cases hn
  have hcr : get_correct_verb_form V .singular = correctRegular V .singular (lowerS V) := by
    simp only [get_correct_verb_form, hc, hi]
  rw [hcr]
  unfold correctRegular
  rw [if_pos rfl, if_neg (by simp [hends])]
  by_cases hA : endsWithAny (lowerS V)
      ["s".data, "sh".data, "ch".data, "x".data, "z".data] = true ∨
      (endsWith (lowerS V) "o".data = true ∧
       endsWithAny (lowerS V) ["oo".data, "eo".data, "io".data] = false)
  · rw [if_pos hA]
    exact classify_append_es V hi
  · rw [if_neg hA]
    by_cases hB : endsWith (lowerS V) "y".data = true ∧ (lowerS V).length > 1 ∧
        (match (lowerS V).reverse.get? 1 with
         | some b => decide (b ∉ vowels)
         | none => false) = true
    · rw [if_pos hB]
      exact classify_append_ies (V.take (V.length - 1))
    · rw [if_neg hB]
      exact classify_append_s V

/-- **C4** witness: the regular verb "run" classifies plural; corrected
towards singular it becomes "runs", which classifies singular. -/
theorem c4_witness :
    get_correct_verb_form "run".data .singular = "runs".data ∧
    classify_verb (get_correct_verb_form "run".data .singular) = .singular :=
  ⟨by decide,
   c4_amended_singular_convergence "run".data (by decide) (by decide) (by decide)⟩

end SVA
